import Mathlib

/-!
Verification development for the turfup backend (a Fastify + Postgres REST
service for organizing sports matches).  The relational store (tables
`matches` and `players` from the deployment guide's schema, plus the `users`
table and the in-memory session `Map` of the auth variant) is embedded as
explicit Lean state, and every HTTP handler of `backend.js` is translated to a
pure function from the request and the current store to a response and the
next store.  SQL timestamps (`created_at`, `joined_at`) are modelled by a
logical clock `now` that the store advances on every insert, and the `SERIAL`
primary keys by `nextMatchId` / `nextPlayerId` counters.
-/

namespace Turfup

/-- A creator, as the `creator_name` / `creator_contact` columns are exposed
through `json_build_object` in the handlers. -/
structure Creator where
  name : String
  contact : String
deriving DecidableEq, Repr

/-- One row of the `matches` table.  `createdAt` is the logical insertion
time; `time` is nullable (`TIME` column with no `NOT NULL`). -/
structure MatchRow where
  id : Int
  location : String
  date : String
  time : Option String
  playersNeeded : Int
  creatorName : String
  creatorContact : String
  createdAt : Nat
deriving DecidableEq, Repr

/-- One row of the `players` table.  `matchId` is the `match_id` foreign key
into `matches`. -/
structure PlayerRow where
  id : Int
  matchId : Int
  name : String
  contact : String
  joinedAt : Nat
deriving DecidableEq, Repr

/-- The relational store reachable from the match handlers, plus the two
`SERIAL` counters and the logical clock. -/
structure Store where
  matchRows : List MatchRow
  players : List PlayerRow
  nextMatchId : Int
  nextPlayerId : Int
  now : Nat
deriving DecidableEq, Repr

/-- The store right after the schema is created: both tables empty, `SERIAL`
counters at 1. -/
def Store.init : Store :=
  { matchRows := [], players := [], nextMatchId := 1, nextPlayerId := 1, now := 0 }

/-- The rows of `players` whose `match_id` equals `mid`
(`p ON p.match_id = m.id` / `WHERE match_id = $1`). -/
def playersFor (ps : List PlayerRow) (mid : Int) : List PlayerRow :=
  ps.filter (fun p => p.matchId == mid)

/-- `playersFor` read off a store. -/
def playersOf (s : Store) (mid : Int) : List PlayerRow :=
  playersFor s.players mid

/-- `COUNT(p.id)` of the join handler's first query: the number of player
rows of match `mid`. -/
def playerCount (s : Store) (mid : Int) : Nat :=
  (playersOf s mid).length

/-- One element of the `players` JSON aggregate:
`json_build_object('name', p.name, 'contact', p.contact, 'joinedAt', p.joined_at)`. -/
structure PlayerView where
  name : String
  contact : String
  joinedAt : Nat
deriving DecidableEq, Repr

/-- One row of the aggregate queries: the match row (`m.*`), the `creator`
object and the `players` array. -/
structure MatchAggregate where
  row : MatchRow
  creator : Creator
  players : List PlayerView
deriving DecidableEq, Repr

/-- `ORDER BY p.joined_at` comparison on player rows. -/
def joinedBefore (a b : PlayerRow) : Prop := a.joinedAt ≤ b.joinedAt

instance : DecidableRel joinedBefore :=
  fun a b => inferInstanceAs (Decidable (a.joinedAt ≤ b.joinedAt))

instance : IsTotal PlayerRow joinedBefore :=
  ⟨fun a b => Nat.le_total a.joinedAt b.joinedAt⟩

instance : IsTrans PlayerRow joinedBefore :=
  ⟨fun _ _ _ => Nat.le_trans⟩

/-- `ORDER BY m.created_at DESC` comparison on match rows (newest first). -/
def createdAfter (a b : MatchRow) : Prop := b.createdAt ≤ a.createdAt

instance : DecidableRel createdAfter :=
  fun a b => inferInstanceAs (Decidable (b.createdAt ≤ a.createdAt))

instance : IsTotal MatchRow createdAfter :=
  ⟨fun a b => Nat.le_total b.createdAt a.createdAt⟩

instance : IsTrans MatchRow createdAfter :=
  ⟨fun _ _ _ h1 h2 => Nat.le_trans h2 h1⟩

/-- The aggregate of one match: its players filtered by `match_id`, sorted by
`joined_at`, projected to the JSON fields; together with the `creator` object.
A match with no player rows gets the literal `'[]'` of the `COALESCE`, i.e.
the empty list. -/
def aggregateOf (s : Store) (m : MatchRow) : MatchAggregate :=
  { row := m
    creator := { name := m.creatorName, contact := m.creatorContact }
    players := (List.insertionSort joinedBefore (playersOf s m.id)).map
      (fun p => { name := p.name, contact := p.contact, joinedAt := p.joinedAt }) }

/-- `GET /matches`: every match row, grouped with its players, ordered by
`created_at DESC`. -/
def listMatches (s : Store) : List MatchAggregate :=
  (List.insertionSort createdAfter s.matchRows).map (aggregateOf s)

/-- `SELECT ... FROM matches m ... WHERE m.id = $1`: the match row with the
given id, if any (`id` is the primary key, so at most one row matches). -/
def findMatch (s : Store) (mid : Int) : Option MatchRow :=
  s.matchRows.find? (fun m => m.id == mid)

/-- Outcome of `GET /matches/:id`.  `serviceError` is the catch-all 500 path,
taken in particular when the `parseInt` of the id produced `NaN` and the
store rejects the malformed integer parameter. -/
inductive GetMatchResult where
  | ok (agg : MatchAggregate)
  | notFound
  | serviceError
deriving DecidableEq, Repr

/-- HTTP status of a `GET /matches/:id` response. -/
def GetMatchResult.status : GetMatchResult → Nat
  | .ok _ => 200
  | .notFound => 404
  | .serviceError => 500

/-- `GET /matches/:id` handler.  The id parameter is the result of
`parseInt(request.params.id)`: `none` models `NaN`, which makes the
parameterized query throw and the catch block answer 500. -/
def getMatch (s : Store) (idParam : Option Int) : GetMatchResult :=
  match idParam with
  | none => .serviceError
  | some mid =>
    match findMatch s mid with
    | none => .notFound
    | some m => .ok (aggregateOf s m)

/-- Body of `POST /matches`.  `none` models an absent (or `null`/`undefined`)
field, the empty string an empty text field; `playersNeeded` is kept as the
number the handler passes through `parseInt`. -/
structure CreateMatchRequest where
  location : String
  date : String
  time : Option String
  playersNeeded : Option Int
  creator : Option Creator
deriving DecidableEq, Repr

/-- The handler's guard
`!location || !date || !playersNeeded || !creator || !creator.name || !creator.contact`.
JavaScript falsiness makes the empty string and the number 0 count as
missing. -/
def createMissingField (r : CreateMatchRequest) : Bool :=
  r.location == "" || r.date == "" || r.playersNeeded == none ||
  r.playersNeeded == some 0 ||
  (match r.creator with
   | none => true
   | some c => c.name == "" || c.contact == "")

/-- Outcome of `POST /matches`.  `validationError` is the 400
"Missing required fields" answer; `serviceError` the 500 catch-all, taken in
particular when the `INSERT` violates the schema's
`CHECK (players_needed > 0 AND players_needed <= 20)`. -/
inductive CreateMatchResult where
  | ok (resp : MatchAggregate)
  | validationError
  | serviceError
deriving DecidableEq, Repr

/-- HTTP status of a `POST /matches` response. -/
def CreateMatchResult.status : CreateMatchResult → Nat
  | .ok _ => 200
  | .validationError => 400
  | .serviceError => 500

/-- `POST /matches` handler.  On success the new row is inserted with the
next `SERIAL` id and the current timestamp, and the response is the formatted
new match with an empty `players` array (`time || null` turns an empty time
into `NULL`). -/
def createMatch (s : Store) (r : CreateMatchRequest) : CreateMatchResult × Store :=
  if createMissingField r then (.validationError, s)
  else
    match r.creator, r.playersNeeded with
    | some c, some pn =>
      if pn < 1 ∨ 20 < pn then (.serviceError, s)
      else
        let m : MatchRow :=
          { id := s.nextMatchId
            location := r.location
            date := r.date
            time := if r.time = some "" then none else r.time
            playersNeeded := pn
            creatorName := c.name
            creatorContact := c.contact
            createdAt := s.now }
        (.ok { row := m, creator := c, players := [] },
         { s with matchRows := s.matchRows ++ [m]
                  nextMatchId := s.nextMatchId + 1
                  now := s.now + 1 })
    | _, _ => (.serviceError, s)

/-- Outcome of `POST /matches/:id/join`: 400 "Name and contact required",
404 "Match not found", 400 "Match is full!", 400 "You have already joined
this match", the refreshed aggregate, or the 500 catch-all. -/
inductive JoinResult where
  | ok (agg : MatchAggregate)
  | validationError
  | notFound
  | full
  | duplicateMember
  | serviceError
deriving DecidableEq, Repr

/-- HTTP status of a `POST /matches/:id/join` response. -/
def JoinResult.status : JoinResult → Nat
  | .ok _ => 200
  | .validationError => 400
  | .notFound => 404
  | .full => 400
  | .duplicateMember => 400
  | .serviceError => 500

/-- `true` iff the join succeeded (the handler returned the refreshed
aggregate). -/
def JoinResult.isOk : JoinResult → Bool
  | .ok _ => true
  | _ => false

/-- `POST /matches/:id/join` handler.  In source order: the
`!name || !contact` guard, the count-and-quota read (one query), the
duplicate-row read (a second query), the `INSERT` (a third query), and a
final aggregate read of the same match.  The final read is expressed with
the already-found row `m`: the `matches` table is unchanged between the two
reads, so `WHERE m.id = $1` finds the same row again. -/
def join (s : Store) (idParam : Option Int) (name contact : String) :
    JoinResult × Store :=
  if name = "" ∨ contact = "" then (.validationError, s)
  else
    match idParam with
    | none => (.serviceError, s)
    | some mid =>
      match findMatch s mid with
      | none => (.notFound, s)
      | some m =>
        if m.playersNeeded ≤ (playerCount s mid : Int) then (.full, s)
        else if (playersOf s mid).any (fun p => p.name == name) then
          (.duplicateMember, s)
        else
          let s2 : Store :=
            { s with players := s.players ++
                [{ id := s.nextPlayerId, matchId := mid, name := name,
                   contact := contact, joinedAt := s.now }]
                     nextPlayerId := s.nextPlayerId + 1
                     now := s.now + 1 }
          (.ok (aggregateOf s2 m), s2)

/-- Outcome of `POST /matches/:id/leave`: 400 "Name required",
404 "Player not found in this match", the "Left match successfully"
confirmation, or the 500 catch-all. -/
inductive LeaveResult where
  | ok
  | validationError
  | notFound
  | serviceError
deriving DecidableEq, Repr

/-- HTTP status of a `POST /matches/:id/leave` response. -/
def LeaveResult.status : LeaveResult → Nat
  | .ok => 200
  | .validationError => 400
  | .notFound => 404
  | .serviceError => 500

/-- `POST /matches/:id/leave` handler: one
`DELETE FROM players WHERE match_id = $1 AND name = $2 RETURNING *`;
404 exactly when the delete returned no row. -/
def leave (s : Store) (idParam : Option Int) (name : String) :
    LeaveResult × Store :=
  if name = "" then (.validationError, s)
  else
    match idParam with
    | none => (.serviceError, s)
    | some mid =>
      if s.players.any (fun p => p.matchId == mid && p.name == name) then
        (.ok, { s with players :=
          s.players.filter (fun p => !(p.matchId == mid && p.name == name)) })
      else (.notFound, s)

/-- Outcome of `DELETE /matches/:id`. -/
inductive DeleteResult where
  | ok
  | notFound
  | serviceError
deriving DecidableEq, Repr

/-- HTTP status of a `DELETE /matches/:id` response. -/
def DeleteResult.status : DeleteResult → Nat
  | .ok => 200
  | .notFound => 404
  | .serviceError => 500

/-- `DELETE /matches/:id` handler: first
`DELETE FROM players WHERE match_id = $1`, then
`DELETE FROM matches WHERE id = $1 RETURNING *`; 404 when the second delete
returned no row.  The player delete runs before the match lookup and is not
rolled back on the 404 path (there is no transaction); deleting players does
not change the `matches` table, so the row test reads the original
`matchRows`. -/
def deleteMatch (s : Store) (idParam : Option Int) : DeleteResult × Store :=
  match idParam with
  | none => (.serviceError, s)
  | some mid =>
    if s.matchRows.any (fun m => m.id == mid) then
      (.ok, { s with
          matchRows := s.matchRows.filter (fun m => !(m.id == mid)),
          players := s.players.filter (fun p => !(p.matchId == mid)) })
    else
      (.notFound,
       { s with players := s.players.filter (fun p => !(p.matchId == mid)) })

/-- One store-mutating request, for reasoning about reachable stores. -/
inductive Op where
  | create (r : CreateMatchRequest)
  | joinOp (idParam : Option Int) (name contact : String)
  | leaveOp (idParam : Option Int) (name : String)
  | deleteOp (idParam : Option Int)
deriving DecidableEq, Repr

/-- The store after one request. -/
def applyOp (s : Store) : Op → Store
  | .create r => (createMatch s r).2
  | .joinOp idp n c => (join s idp n c).2
  | .leaveOp idp n => (leave s idp n).2
  | .deleteOp idp => (deleteMatch s idp).2

/-- The store after a sequence of requests. -/
def run (s : Store) (ops : List Op) : Store :=
  ops.foldl applyOp s

/-! Auth layer of the variant server (`/auth/...` endpoints): a `users` table
and the in-memory `sessions` Map from opaque tokens to user ids. -/

/-- One row of the `users` table, restricted to the columns the auth
handlers read back (`id, username, name, contact`); the password hash plays
no role in the session claims. -/
structure User where
  id : Int
  username : String
  name : String
  contact : String
deriving DecidableEq, Repr

/-- The in-memory session store: `Map` entries token ↦ user id.  A JS `Map`
has at most one entry per key; an association list with the same property
models it, `get` being the first (only) binding. -/
def sessionsGet (sessions : List (String × Int)) (token : String) : Option Int :=
  (sessions.find? (fun e => e.1 == token)).map (fun e => e.2)

/-- `sessions.delete(token)`: drop the binding of `token`, if any. -/
def sessionsDelete (sessions : List (String × Int)) (token : String) :
    List (String × Int) :=
  sessions.filter (fun e => !(e.1 == token))

/-- `getUserFromToken`: `sessions.get(token)`, then
`SELECT id, username, name, contact FROM users WHERE id = $1`, `null` when
either step finds nothing. -/
def getUserFromToken (sessions : List (String × Int)) (users : List User)
    (token : String) : Option User :=
  match sessionsGet sessions token with
  | none => none
  | some uid => users.find? (fun u => u.id == uid)

/-- Outcome of `GET /auth/me`: 401 "Not authenticated" when the bearer token
is falsy, 401 "Invalid session" when `getUserFromToken` returns `null`,
otherwise the user object. -/
inductive AuthMeResult where
  | ok (user : User)
  | notAuthenticated
  | invalidSession
deriving DecidableEq, Repr

/-- HTTP status of a `GET /auth/me` response. -/
def AuthMeResult.status : AuthMeResult → Nat
  | .ok _ => 200
  | .notAuthenticated => 401
  | .invalidSession => 401

/-- `GET /auth/me` handler.  `token` is the header value after the
`replace('Bearer ', '')`; the empty string models a falsy token (missing
header). -/
def authMe (sessions : List (String × Int)) (users : List User)
    (token : String) : AuthMeResult :=
  if token = "" then .notAuthenticated
  else
    match getUserFromToken sessions users token with
    | none => .invalidSession
    | some u => .ok u

/-- `POST /auth/logout` handler: `if (token) sessions.delete(token)`; the
response is always `success: true`. -/
def logout (sessions : List (String × Int)) (token : String) :
    List (String × Int) :=
  if token = "" then sessions else sessionsDelete sessions token

/-! `parseInt` — every `:id` route parameter goes through
`parseInt(request.params.id)`. -/

/-- ASCII whitespace stripped by `parseInt` (the ECMAScript definition also
strips rarer Unicode space characters, which no claim exercises). -/
def isJsSpace (c : Char) : Bool :=
  c = ' ' || c = '\t' || c = '\n' || c = '\r' || c = '\x0b' || c = '\x0c'

/-- Value of one digit character under the given radix, `none` when the
character is not a digit of that radix. -/
def digitVal (radix : Nat) (c : Char) : Option Nat :=
  let v : Option Nat :=
    if '0' ≤ c ∧ c ≤ '9' then some (c.toNat - '0'.toNat)
    else if 'a' ≤ c ∧ c ≤ 'z' then some (c.toNat - 'a'.toNat + 10)
    else if 'A' ≤ c ∧ c ≤ 'Z' then some (c.toNat - 'A'.toNat + 10)
    else none
  match v with
  | some n => if n < radix then some n else none
  | none => none

/-- Sign step of `parseInt`: consume one leading `-` or `+`, if present. -/
def stripSign (cs : List Char) : Int × List Char :=
  match cs with
  | [] => (1, [])
  | c :: r => if c = '-' then (-1, r) else if c = '+' then (1, r) else (1, c :: r)

/-- Radix step of `parseInt` with no radix argument: a leading `0x`/`0X`
switches to base 16 and is consumed; otherwise base 10. -/
def stripHex (cs : List Char) : Nat × List Char :=
  match cs with
  | c0 :: c1 :: r =>
    if c0 = '0' ∧ (c1 = 'x' ∨ c1 = 'X') then (16, r) else (10, c0 :: c1 :: r)
  | cs => (10, cs)

/-- ECMAScript `parseInt(string)` with no radix argument, on the character
list: strip leading whitespace, read an optional sign, switch to base 16
after a `0x`/`0X` prefix, then read the longest prefix of digits of the
radix; `NaN` (here `none`) when that prefix is empty, otherwise the signed
value.  Trailing garbage is ignored. -/
def jsParseIntList (cs : List Char) : Option Int :=
  let cs0 := cs.dropWhile isJsSpace
  let signed := stripSign cs0
  let based := stripHex signed.2
  let ds := based.2.takeWhile (fun c => (digitVal based.1 c).isSome)
  if ds = [] then none
  else some (signed.1 *
    (ds.foldl (fun acc c => acc * based.1 + ((digitVal based.1 c).getD 0)) 0 : Nat))

/-- `parseInt(request.params.id)`. -/
def jsParseInt (s : String) : Option Int :=
  jsParseIntList s.toList

/-! Route-level composition: every match endpoint computes
`const matchId = parseInt(request.params.id)` and hands the result to the
queries, so each route is the handler composed with `parseInt` on the raw
`:id` path parameter. -/

/-- `GET /matches/:id` on the raw path parameter. -/
def getMatchRoute (s : Store) (idStr : String) : GetMatchResult :=
  getMatch s (jsParseInt idStr)

/-- `POST /matches/:id/join` on the raw path parameter. -/
def joinRoute (s : Store) (idStr : String) (name contact : String) :
    JoinResult × Store :=
  join s (jsParseInt idStr) name contact

/-- `POST /matches/:id/leave` on the raw path parameter. -/
def leaveRoute (s : Store) (idStr : String) (name : String) :
    LeaveResult × Store :=
  leave s (jsParseInt idStr) name

/-- `DELETE /matches/:id` on the raw path parameter. -/
def deleteMatchRoute (s : Store) (idStr : String) : DeleteResult × Store :=
  deleteMatch s (jsParseInt idStr)

/-! The join handler split at its `await` boundaries, for reasoning about
interleaved requests.  Each `pool.query` is one atomic store access, but the
handler holds no transaction or lock across them: between the count-and-check
read and the insert, another request's queries may run against the same
store. -/

/-- Decision reached by the join handler's read queries (the count/quota
query and the duplicate-row query), before anything is written. -/
inductive JoinCheck where
  | reject (r : JoinResult)
  | proceed
deriving DecidableEq, Repr

/-- The read-and-decide phase of `POST /matches/:id/join`: exactly the
guards of `join`, stopping short of the `INSERT`. -/
def joinCheck (s : Store) (idParam : Option Int) (name contact : String) :
    JoinCheck :=
  if name = "" ∨ contact = "" then .reject .validationError
  else
    match idParam with
    | none => .reject .serviceError
    | some mid =>
      match findMatch s mid with
      | none => .reject .notFound
      | some m =>
        if m.playersNeeded ≤ (playerCount s mid : Int) then .reject .full
        else if (playersOf s mid).any (fun p => p.name == name) then
          .reject .duplicateMember
        else .proceed

/-- The write phase of `POST /matches/:id/join`: the
`INSERT INTO players (match_id, name, contact)` query, which re-checks
nothing (the schema has no capacity constraint, and the
`players(match_id, name)` unique index does not fire for distinct names). -/
def joinInsert (s : Store) (mid : Int) (name contact : String) : Store :=
  { s with
    players := s.players ++
      [{ id := s.nextPlayerId, matchId := mid, name := name,
         contact := contact, joinedAt := s.now }],
    nextPlayerId := s.nextPlayerId + 1,
    now := s.now + 1 }

/-! Concrete stores used by the scenario claims and the witnesses. -/

/-- Creator of the demo matches. -/
def demoCreator : Creator := { name := "C", contact := "c@x" }

/-- A valid creation request for a one-seat match. -/
def demoReq : CreateMatchRequest :=
  { location := "Park", date := "2026-03-01", time := none,
    playersNeeded := some 1, creator := some demoCreator }

/-- Store holding one freshly created match: id 1, quota 1, no players. -/
def demoStore : Store := (createMatch Store.init demoReq).2

/-- `demoStore` after "A" joined match 1 — the match is now full. -/
def demoFull : Store := (join demoStore (some 1) "A" "a@x").2

/-- The row of the demo match as it sits in `demoStore` and `demoFull`. -/
def demoMatch : MatchRow :=
  { id := 1, location := "Park", date := "2026-03-01", time := none,
    playersNeeded := 1, creatorName := "C", creatorContact := "c@x",
    createdAt := 0 }

/-- The player row created by "A" joining the demo match (the logical clock
was at 1 after the creation). -/
def demoPlayerA : PlayerRow :=
  { id := 1, matchId := 1, name := "A", contact := "a@x", joinedAt := 1 }

/-- Store holding one two-seat match: id 1, quota 2, no players. -/
def demoStoreTwo : Store :=
  (createMatch Store.init { demoReq with playersNeeded := some 2 }).2

/-- `demoStoreTwo` after "A" joined match 1 — one seat still free. -/
def demoHalf : Store := (join demoStoreTwo (some 1) "A" "a@x").2

/-! Store well-formedness: the facts the schema guarantees about any store
the handlers can ever see — primary-key uniqueness of `matches.id`, the
`CHECK` bound on `players_needed`, the capacity invariant, the
`match_id REFERENCES matches(id)` foreign key, and the unique index on
`players(match_id, name)`.  The `SERIAL` counter bound makes fresh ids
fresh. -/
structure WF (s : Store) : Prop where
  matchIdsDistinct : s.matchRows.Pairwise (fun a b => a.id ≠ b.id)
  matchBounds : ∀ m ∈ s.matchRows,
    0 < m.playersNeeded ∧ m.playersNeeded ≤ 20 ∧ m.id < s.nextMatchId
  capacity : ∀ m ∈ s.matchRows, (playerCount s m.id : Int) ≤ m.playersNeeded
  fk : ∀ p ∈ s.players, ∃ m ∈ s.matchRows, m.id = p.matchId
  memberKeysDistinct :
    s.players.Pairwise (fun a b => (a.matchId, a.name) ≠ (b.matchId, b.name))

/-- The empty initial store is well-formed. -/
theorem WF_init : WF Store.init := by
  constructor <;> simp [Store.init, playerCount, playersOf, playersFor]

/-- In a list pairwise-distinct under a key, two members with the same key
are the same element. -/
theorem eq_of_mem_pairwise_key {α : Type _} {β : Type _} {f : α → β}
    {l : List α} (hp : l.Pairwise (fun a b => f a ≠ f b)) :
    ∀ {a b : α}, a ∈ l → b ∈ l → f a = f b → a = b := by
  induction hp with
  | nil => intro a b ha _ _; cases ha
  | cons hx _ ih =>
    intro a b ha hb hf
    rcases List.mem_cons.mp ha with rfl | ha2
    · rcases List.mem_cons.mp hb with rfl | hb2
      · rfl
      · exact absurd hf (hx _ hb2)
    · rcases List.mem_cons.mp hb with rfl | hb2
      · exact absurd hf.symm (hx _ ha2)
      · exact ih ha2 hb2 hf

/-- A successful `findMatch` returns a member row carrying the looked-up
id. -/
theorem findMatch_mem {s : Store} {mid : Int} {m : MatchRow}
    (h : findMatch s mid = some m) : m ∈ s.matchRows ∧ m.id = mid := by
  refine ⟨List.mem_of_find?_eq_some h, ?_⟩
  simpa using List.find?_some h

/-- Appending one player row to the table grows each per-match selection by
that row exactly when its `match_id` matches. -/
theorem length_playersFor_append (ps : List PlayerRow) (p : PlayerRow)
    (mid : Int) :
    (playersFor (ps ++ [p]) mid).length =
      (playersFor ps mid).length + (if p.matchId = mid then 1 else 0) := by
  rw [playersFor, List.filter_append]
  rw [List.length_append]
  congr 1
  by_cases h : p.matchId = mid <;> simp [h]

/-- Shrinking the `players` table (any sublist) preserves well-formedness:
counts only drop, and surviving rows keep their referenced matches. -/
theorem WF_players_sublist {s : Store} {ps2 : List PlayerRow}
    (hsub : ps2.Sublist s.players) (h : WF s) :
    WF { s with players := ps2 } where
  matchIdsDistinct := h.matchIdsDistinct
  matchBounds := h.matchBounds
  capacity := by
    intro m hm
    have hc : (playersFor ps2 m.id).length ≤ (playersFor s.players m.id).length :=
      (List.Sublist.filter _ hsub).length_le
    have hc2 : (playerCount { s with players := ps2 } m.id : Int) ≤
        (playerCount s m.id : Int) := by
      simp only [playerCount, playersOf]
      exact_mod_cast hc
    exact le_trans hc2 (h.capacity m hm)
  fk := by
    intro p hp
    exact h.fk p (hsub.subset hp)
  memberKeysDistinct := h.memberKeysDistinct.sublist hsub

/-- `createMatch` preserves well-formedness. -/
theorem WF_createMatch (s : Store) (r : CreateMatchRequest) (h : WF s) :
    WF (createMatch s r).2 := by
  unfold createMatch
  split
  · exact h
  · split
    · next c pn heqc heqpn =>
      split
      · exact h
      · next hrange =>
        have hpn : 1 ≤ pn ∧ pn ≤ 20 := by
          push_neg at hrange
          exact ⟨hrange.1, hrange.2⟩
        show WF { s with
            matchRows := s.matchRows ++
              [{ id := s.nextMatchId, location := r.location, date := r.date,
                 time := if r.time = some "" then none else r.time,
                 playersNeeded := pn, creatorName := c.name,
                 creatorContact := c.contact, createdAt := s.now }],
            nextMatchId := s.nextMatchId + 1,
            now := s.now + 1 }
        constructor
        · rw [List.pairwise_append]
          refine ⟨h.matchIdsDistinct, List.pairwise_singleton _ _, ?_⟩
          intro a ha b hb
          have := (h.matchBounds a ha).2.2
          rcases List.mem_singleton.mp hb with rfl
          exact Int.ne_of_lt this
        · intro m hm
          rcases List.mem_append.mp hm with hm2 | hm2
          · rcases h.matchBounds m hm2 with ⟨h1, h2, h3⟩
            refine ⟨h1, h2, ?_⟩
            show m.id < s.nextMatchId + 1
            omega
          · rcases List.mem_singleton.mp hm2 with rfl
            refine ⟨?_, ?_, ?_⟩
            · show (0 : Int) < pn
              omega
            · show pn ≤ 20
              exact hpn.2
            · show s.nextMatchId < s.nextMatchId + 1
              omega
        · intro m hm
          rcases List.mem_append.mp hm with hm2 | hm2
          · exact h.capacity m hm2
          · rcases List.mem_singleton.mp hm2 with rfl
            have hzero : playersFor s.players s.nextMatchId = [] := by
              simp only [playersFor]
              rw [List.filter_eq_nil_iff]
              intro p hp
              rcases h.fk p hp with ⟨m2, hm2mem, hm2id⟩
              have := (h.matchBounds m2 hm2mem).2.2
              simp only [beq_iff_eq]
              omega
            show ((playersFor s.players s.nextMatchId).length : Int) ≤ pn
            rw [hzero]
            simp
            omega
        · intro p hp
          rcases h.fk p hp with ⟨m2, hm2mem, hm2id⟩
          exact ⟨m2, List.mem_append_left _ hm2mem, hm2id⟩
        · exact h.memberKeysDistinct
    · exact h

/-- `join` preserves well-formedness. -/
theorem WF_join (s : Store) (idp : Option Int) (n c : String) (h : WF s) :
    WF (join s idp n c).2 := by
  unfold join
  split
  · exact h
  · split
    · exact h
    · next mid =>
      split
      · exact h
      · next m hfind =>
        split
        · exact h
        · next hfull =>
          split
          · exact h
          · next hdup =>
            have hmmem := (findMatch_mem hfind).1
            have hmid := (findMatch_mem hfind).2
            have hnodup : ∀ p ∈ playersOf s mid, ¬ p.name = n := by
              intro p hp hpn
              exact hdup (List.any_eq_true.mpr ⟨p, hp, by simp [hpn]⟩)
            show WF { s with
              players := s.players ++
                [{ id := s.nextPlayerId, matchId := mid, name := n,
                   contact := c, joinedAt := s.now }],
              nextPlayerId := s.nextPlayerId + 1,
              now := s.now + 1 }
            constructor
            · exact h.matchIdsDistinct
            · exact h.matchBounds
            · intro m2 hm2
              have hcnt : playerCount
                  { s with
                    players := s.players ++
                      [{ id := s.nextPlayerId, matchId := mid, name := n,
                         contact := c, joinedAt := s.now }],
                    nextPlayerId := s.nextPlayerId + 1,
                    now := s.now + 1 } m2.id =
                  playerCount s m2.id + (if mid = m2.id then 1 else 0) := by
                simp only [playerCount, playersOf]
                exact length_playersFor_append _ _ _
              by_cases hid : mid = m2.id
              · have hm2eq : m2 = m := by
                  refine eq_of_mem_pairwise_key (f := fun x => x.id)
                    h.matchIdsDistinct hm2 hmmem ?_
                  show m2.id = m.id
                  rw [← hid, hmid]
                have hlt : (playerCount s mid : Int) < m.playersNeeded :=
                  not_le.mp hfull
                have hidq : playerCount s m2.id = playerCount s mid := by
                  rw [← hid]
                rw [hcnt, if_pos hid, hidq, hm2eq]
                omega
              · rw [hcnt, if_neg hid]
                simpa using h.capacity m2 hm2
            · intro p hp
              rcases List.mem_append.mp hp with hp2 | hp2
              · exact h.fk p hp2
              · rcases List.mem_singleton.mp hp2 with rfl
                exact ⟨m, hmmem, hmid⟩
            · rw [List.pairwise_append]
              refine ⟨h.memberKeysDistinct, List.pairwise_singleton _ _, ?_⟩
              intro a ha b hb
              rcases List.mem_singleton.mp hb with rfl
              intro hkey
              have hamid : a.matchId = mid := congrArg Prod.fst hkey
              have haname : a.name = n := congrArg Prod.snd hkey
              refine hnodup a ?_ haname
              simp [playersOf, playersFor, List.mem_filter, ha, hamid]

/-- `leave` preserves well-formedness. -/
theorem WF_leave (s : Store) (idp : Option Int) (n : String) (h : WF s) :
    WF (leave s idp n).2 := by
  unfold leave
  split
  · exact h
  · split
    · exact h
    · split
      · exact WF_players_sublist (List.filter_sublist _) h
      · exact h

/-- `deleteMatch` preserves well-formedness. -/
theorem WF_deleteMatch (s : Store) (idp : Option Int) (h : WF s) :
    WF (deleteMatch s idp).2 := by
  unfold deleteMatch
  split
  · exact h
  · next mid =>
    have h1 : WF { s with players := s.players.filter (fun p => !(p.matchId == mid)) } :=
      WF_players_sublist (List.filter_sublist _) h
    split
    · constructor
      · exact h.matchIdsDistinct.sublist (List.filter_sublist _)
      · intro m hm
        have hmem := (List.filter_sublist _).subset hm
        exact h.matchBounds m hmem
      · intro m hm
        have hmem := (List.filter_sublist _).subset hm
        exact h1.capacity m hmem
      · intro p hp
        have hpmem : p ∈ s.players := (List.filter_sublist _).subset hp
        have hpne : p.matchId ≠ mid := by
          have := (List.mem_filter.mp hp).2
          simpa using this
        rcases h.fk p hpmem with ⟨m2, hm2mem, hm2id⟩
        refine ⟨m2, List.mem_filter.mpr ⟨hm2mem, ?_⟩, hm2id⟩
        simp [hm2id, hpne]
      · exact h1.memberKeysDistinct
    · exact h1

/-- Every store reachable from a well-formed store is well-formed. -/
theorem WF_applyOp (s : Store) (op : Op) (h : WF s) : WF (applyOp s op) := by
  cases op with
  | create r => exact WF_createMatch s r h
  | joinOp idp n c => exact WF_join s idp n c h
  | leaveOp idp n => exact WF_leave s idp n h
  | deleteOp idp => exact WF_deleteMatch s idp h

/-- Every store reachable from the initial store by a sequence of requests
is well-formed. -/
theorem WF_run (ops : List Op) : WF (run Store.init ops) := by
  suffices hgen : ∀ (s : Store), WF s → WF (run s ops) from hgen Store.init WF_init
  induction ops with
  | nil => intro s hs; exact hs
  | cons op rest ih =>
    intro s hs
    exact ih (applyOp s op) (WF_applyOp s op hs)

/-- The `players` array of an aggregate has exactly `COUNT(p.id)` elements:
sorting permutes and the projection maps one-to-one. -/
theorem aggregateOf_players_length (s : Store) (m : MatchRow) :
    (aggregateOf s m).players.length = playerCount s m.id := by
  simp only [aggregateOf, List.length_map, playerCount]
  exact (List.perm_insertionSort _ _).length_eq

/-- The monolithic `join` is the check phase followed, on `proceed`, by the
insert phase: splitting the handler at its query boundaries loses nothing. -/
theorem join_eq_phases (s : Store) (mid : Int) (name contact : String) :
    (∀ r, joinCheck s (some mid) name contact = JoinCheck.reject r →
       join s (some mid) name contact = (r, s)) ∧
    (∀ m, joinCheck s (some mid) name contact = JoinCheck.proceed →
       findMatch s mid = some m →
       join s (some mid) name contact =
         (JoinResult.ok (aggregateOf (joinInsert s mid name contact) m),
          joinInsert s mid name contact)) := by
  by_cases h1 : name = "" ∨ contact = ""
  · have hchk : joinCheck s (some mid) name contact =
        JoinCheck.reject JoinResult.validationError := by
      simp only [joinCheck, if_pos h1]
    have hjn : join s (some mid) name contact =
        (JoinResult.validationError, s) := by
      simp only [join, if_pos h1]
    constructor
    · intro r hr
      rw [hchk] at hr
      injection hr with h
      subst h
      exact hjn
    · intro m hpr _
      rw [hchk] at hpr
      cases hpr
  · cases hf : findMatch s mid with
    | none =>
      have hchk : joinCheck s (some mid) name contact =
          JoinCheck.reject JoinResult.notFound := by
        simp only [joinCheck, if_neg h1]
        rw [hf]
      have hjn : join s (some mid) name contact = (JoinResult.notFound, s) := by
        simp only [join, if_neg h1]
        rw [hf]
      constructor
      · intro r hr
        rw [hchk] at hr
        injection hr with h
        subst h
        exact hjn
      · intro m _ hfm
        cases hfm
    | some m0 =>
      by_cases h2 : m0.playersNeeded ≤ (playerCount s mid : Int)
      · have hchk : joinCheck s (some mid) name contact =
            JoinCheck.reject JoinResult.full := by
          simp only [joinCheck, if_neg h1]
          rw [hf]
          simp only [if_pos h2]
        have hjn : join s (some mid) name contact = (JoinResult.full, s) := by
          simp only [join, if_neg h1]
          rw [hf]
          simp only [if_pos h2]
        constructor
        · intro r hr
          rw [hchk] at hr
          injection hr with h
          subst h
          exact hjn
        · intro m hpr _
          rw [hchk] at hpr
          cases hpr
      · by_cases h3 : (playersOf s mid).any (fun p => p.name == name) = true
        · have hchk : joinCheck s (some mid) name contact =
              JoinCheck.reject JoinResult.duplicateMember := by
            simp only [joinCheck, if_neg h1]
            rw [hf]
            simp only [if_neg h2, if_pos h3]
          have hjn : join s (some mid) name contact =
              (JoinResult.duplicateMember, s) := by
            simp only [join, if_neg h1]
            rw [hf]
            simp only [if_neg h2, if_pos h3]
          constructor
          · intro r hr
            rw [hchk] at hr
            injection hr with h
            subst h
            exact hjn
          · intro m hpr _
            rw [hchk] at hpr
            cases hpr
        · have hchk : joinCheck s (some mid) name contact =
              JoinCheck.proceed := by
            simp only [joinCheck, if_neg h1]
            rw [hf]
            simp only [if_neg h2, if_neg h3]
          have hjn : join s (some mid) name contact =
              (JoinResult.ok (aggregateOf (joinInsert s mid name contact) m0),
               joinInsert s mid name contact) := by
            simp only [join, if_neg h1]
            rw [hf]
            simp only [if_neg h2, if_neg h3]
            rfl
          constructor
          · intro r hr
            rw [hchk] at hr
            cases hr
          · intro m _ hfm
            have hmeq : m0 = m := Option.some.inj hfm
            subst hmeq
            exact hjn

/-- C1: Capacity invariant.  (a) After every sequence of
CreateMatch/Join/Leave/DeleteMatch requests starting from the empty store,
every aggregate returned by the reader carries at most `playersNeeded`
players.  (b) `join` answers `Full` (400) whenever the count read for the
match has reached its quota, for any request that passes the field guard and
finds the match. -/
theorem C1_capacity_invariant :
    (∀ (ops : List Op), ∀ agg ∈ listMatches (run Store.init ops),
        (agg.players.length : Int) ≤ agg.row.playersNeeded) ∧
    (∀ (s : Store) (mid : Int) (name contact : String) (m : MatchRow),
        name ≠ "" → contact ≠ "" → findMatch s mid = some m →
        m.playersNeeded ≤ (playerCount s mid : Int) →
        (join s (some mid) name contact).1 = JoinResult.full) := by
  constructor
  · intro ops agg hagg
    rcases List.mem_map.mp hagg with ⟨m, hmsort, rfl⟩
    have hmem : m ∈ (run Store.init ops).matchRows :=
      (List.perm_insertionSort createdAfter _).subset hmsort
    have hcap := (WF_run ops).capacity m hmem
    rw [aggregateOf_players_length]
    exact hcap
  · intro s mid name contact m hn hc hfind hfull
    have hcond : ¬(name = "" ∨ contact = "") := by
      push_neg
      exact ⟨hn, hc⟩
    simp only [join, if_neg hcond]
    rw [hfind]
    simp only [if_pos hfull]

/-- Witness for C1 at a concrete reachable store: the one-seat demo match
holds one player after "A" joined, and a further join of "B" is refused
with `Full`. -/
theorem C1_capacity_invariant_witness :
    ((aggregateOf demoFull demoMatch).players.length : Int) ≤
      demoMatch.playersNeeded ∧
    (join demoFull (some 1) "B" "b@x").1 = JoinResult.full :=
  ⟨C1_capacity_invariant.1 [Op.create demoReq, Op.joinOp (some 1) "A" "a@x"]
      (aggregateOf demoFull demoMatch) (by decide),
   C1_capacity_invariant.2 demoFull 1 "B" "b@x" demoMatch (by decide) (by decide)
      (by decide) (by decide)⟩

/-- C2 counterexample: the claim says a second `Join` with an
already-recorded `(matchId, name)` always fails with `DuplicateMember`, but
the handler tests capacity first.  In the full one-seat demo match, a
rejoin by "A" is answered `Full`, not `DuplicateMember`. -/
theorem C2_counterexample :
    (join demoFull (some 1) "A" "a@x").1 = JoinResult.full ∧
    (join demoFull (some 1) "A" "a@x").1 ≠ JoinResult.duplicateMember := by
  decide

/-- C2 amended: once `(matchId, name)` is recorded, a further join with the
same pair always fails — with `Full` when the match is at capacity, and with
`DuplicateMember` when a seat is still free — and the store (in particular
the set of player rows) is unchanged, so a second row is never inserted. -/
theorem C2_join_idempotent_rejecting (s : Store) (mid : Int)
    (name contact : String) (hn : name ≠ "") (hc : contact ≠ "")
    (hfk : ∀ p ∈ s.players, ∃ m ∈ s.matchRows, m.id = p.matchId)
    (hjoined : ∃ p ∈ s.players, p.matchId = mid ∧ p.name = name) :
    ((join s (some mid) name contact).1 = JoinResult.full ∨
     (join s (some mid) name contact).1 = JoinResult.duplicateMember) ∧
    (join s (some mid) name contact).2 = s ∧
    (∀ m, findMatch s mid = some m →
       (playerCount s mid : Int) < m.playersNeeded →
       (join s (some mid) name contact).1 = JoinResult.duplicateMember) := by
  have hcond : ¬(name = "" ∨ contact = "") := by
    push_neg
    exact ⟨hn, hc⟩
  rcases hjoined with ⟨p, hp, hpmid, hpname⟩
  have hpmem : p ∈ playersOf s mid := by
    simp [playersOf, playersFor, List.mem_filter, hp, hpmid]
  have hany : (playersOf s mid).any (fun q => q.name == name) = true :=
    List.any_eq_true.mpr ⟨p, hpmem, by simp [hpname]⟩
  rcases hfk p hp with ⟨m0, hm0mem, hm0id⟩
  have hsome : ∃ mf, findMatch s mid = some mf := by
    rw [← Option.isSome_iff_exists]
    rw [findMatch, List.find?_isSome]
    exact ⟨m0, hm0mem, by simp [hm0id, hpmid]⟩
  rcases hsome with ⟨mf, hmf⟩
  by_cases hfull : mf.playersNeeded ≤ (playerCount s mid : Int)
  · have hres : join s (some mid) name contact = (JoinResult.full, s) := by
      simp only [join, if_neg hcond]
      rw [hmf]
      simp only [if_pos hfull]
    refine ⟨Or.inl (by rw [hres]), by rw [hres], ?_⟩
    intro m hm hlt
    rw [hmf] at hm
    have hmeq : mf = m := Option.some.inj hm
    subst hmeq
    exact absurd hlt (not_lt.mpr hfull)
  · have hres : join s (some mid) name contact =
        (JoinResult.duplicateMember, s) := by
      simp only [join, if_neg hcond]
      rw [hmf]
      simp only [if_neg hfull, if_pos hany]
    exact ⟨Or.inr (by rw [hres]), by rw [hres], fun m hm hlt => by rw [hres]⟩

/-- Witness for C2 at the half-full two-seat demo match: "A" rejoining is
rejected with `DuplicateMember` and adds no row. -/
theorem C2_join_idempotent_rejecting_witness :
    ((join demoHalf (some 1) "A" "a@x").1 = JoinResult.full ∨
     (join demoHalf (some 1) "A" "a@x").1 = JoinResult.duplicateMember) ∧
    (join demoHalf (some 1) "A" "a@x").2 = demoHalf ∧
    (∀ m, findMatch demoHalf 1 = some m →
       (playerCount demoHalf 1 : Int) < m.playersNeeded →
       (join demoHalf (some 1) "A" "a@x").1 = JoinResult.duplicateMember) :=
  C2_join_idempotent_rejecting demoHalf 1 "A" "a@x" (by decide) (by decide)
    (by decide) (by decide)

/-- C3: the claim asserts the count/compare/insert sequence is effectively
atomic per match, so that two concurrent joins never overbook.  The handler
runs its queries with no transaction or lock, so the interleaving
check("A"); check("B"); insert("A"); insert("B") is possible on the one-seat
demo match: both checks pass against the count 0, both inserts run, and the
match ends with 2 players against a quota of 1. -/
theorem C3_race_both_admitted :
    joinCheck demoStore (some 1) "A" "a@x" = JoinCheck.proceed ∧
    joinCheck demoStore (some 1) "B" "b@x" = JoinCheck.proceed ∧
    playerCount (joinInsert (joinInsert demoStore 1 "A" "a@x") 1 "B" "b@x") 1 = 2 ∧
    (∀ m ∈ (joinInsert (joinInsert demoStore 1 "A" "a@x") 1 "B" "b@x").matchRows,
       m.playersNeeded = 1) := by
  decide

/-- C4: the concrete scenario.  On a fresh one-seat match: Join("A")
succeeds; Join("B") is refused `Full`; Leave("A") succeeds; afterwards both
Join("B") and a re-Join("A") succeed (no residual block). -/
theorem C4_capacity_leave_scenario :
    (join demoStore (some 1) "A" "a@x").1.isOk = true ∧
    (join demoFull (some 1) "B" "b@x").1 = JoinResult.full ∧
    (leave demoFull (some 1) "A").1 = LeaveResult.ok ∧
    (join (leave demoFull (some 1) "A").2 (some 1) "B" "b@x").1.isOk = true ∧
    (join (leave demoFull (some 1) "A").2 (some 1) "A" "a@x").1.isOk = true := by
  decide

/-- C5 counterexample: the claim says any `playersNeeded` outside 1..20 is
answered with a 400 ValidationError, but the handler's guard only catches
falsy values; 21 passes the guard, the `INSERT` trips the schema `CHECK`,
and the catch block answers 500. -/
theorem C5_counterexample :
    (createMatch Store.init { demoReq with playersNeeded := some 21 }).1 =
      CreateMatchResult.serviceError ∧
    (createMatch Store.init { demoReq with playersNeeded := some 21 }).1.status = 500 ∧
    (createMatch Store.init { demoReq with playersNeeded := some 21 }).1.status ≠ 400 := by
  decide

/-- C5 amended: a missing (falsy) required field — location, date,
playersNeeded (including 0), creator or creator name/contact — is answered
400 ValidationError with the store unchanged; a present `playersNeeded`
outside 1..20 passes the guard, is rejected by the storage `CHECK`, and is
answered 500 ServiceError with the store unchanged (no row inserted either
way); valid input yields the new match with an empty player list. -/
theorem C5_createMatch_validation (s : Store) (r : CreateMatchRequest) :
    (createMissingField r = true →
       createMatch s r = (CreateMatchResult.validationError, s)) ∧
    (∀ c pn, r.creator = some c → r.playersNeeded = some pn →
       createMissingField r = false → (pn < 1 ∨ 20 < pn) →
       createMatch s r = (CreateMatchResult.serviceError, s)) ∧
    (∀ c pn, r.creator = some c → r.playersNeeded = some pn →
       createMissingField r = false → 1 ≤ pn → pn ≤ 20 →
       ∃ agg, (createMatch s r).1 = CreateMatchResult.ok agg ∧
         agg.players = [] ∧ agg.row.playersNeeded = pn ∧
         agg.row ∈ (createMatch s r).2.matchRows) := by
  refine ⟨?_, ?_, ?_⟩
  · intro hmiss
    simp only [createMatch]
    rw [if_pos hmiss]
  · intro c pn hcr hpn hmiss hrange
    simp only [createMatch]
    rw [if_neg (by simp [hmiss])]
    rw [hcr, hpn]
    simp only [if_pos hrange]
  · intro c pn hcr hpn hmiss h1 h20
    have hrange : ¬(pn < 1 ∨ 20 < pn) := by omega
    have hres : createMatch s r =
        (CreateMatchResult.ok
           { row := { id := s.nextMatchId, location := r.location,
                      date := r.date,
                      time := if r.time = some "" then none else r.time,
                      playersNeeded := pn, creatorName := c.name,
                      creatorContact := c.contact, createdAt := s.now },
             creator := c, players := [] },
         { s with
           matchRows := s.matchRows ++
             [{ id := s.nextMatchId, location := r.location, date := r.date,
                time := if r.time = some "" then none else r.time,
                playersNeeded := pn, creatorName := c.name,
                creatorContact := c.contact, createdAt := s.now }],
           nextMatchId := s.nextMatchId + 1,
           now := s.now + 1 }) := by
      simp only [createMatch]
      rw [if_neg (by simp [hmiss])]
      rw [hcr, hpn]
      simp only [if_neg hrange]
    refine ⟨_, by rw [hres], rfl, rfl, ?_⟩
    rw [hres]
    simp

/-- Witness for C5: the three regimes at concrete requests — a request with
no creator is a 400, `playersNeeded = 21` is a 500, and the demo request
succeeds with an empty player list. -/
theorem C5_createMatch_validation_witness :
    createMatch Store.init { demoReq with creator := none } =
      (CreateMatchResult.validationError, Store.init) ∧
    createMatch Store.init { demoReq with playersNeeded := some 21 } =
      (CreateMatchResult.serviceError, Store.init) ∧
    (∃ agg, (createMatch Store.init demoReq).1 = CreateMatchResult.ok agg ∧
       agg.players = [] ∧ agg.row.playersNeeded = 1 ∧
       agg.row ∈ (createMatch Store.init demoReq).2.matchRows) :=
  ⟨(C5_createMatch_validation Store.init
      { demoReq with creator := none }).1 (by decide),
   (C5_createMatch_validation Store.init
      { demoReq with playersNeeded := some 21 }).2.1 demoCreator 21 (by decide)
      (by decide) (by decide) (by decide),
   (C5_createMatch_validation Store.init demoReq).2.2 demoCreator 1 (by decide)
      (by decide) (by decide) (by decide) (by decide)⟩

/-- C6: `DeleteMatch` removes the match row and every player row referencing
it — no orphans remain, all other rows survive — and on an unknown id it
answers NotFound with the store unchanged (the unconditional player delete
removes nothing, since the foreign key guarantees no player references a
missing match). -/
theorem C6_deleteMatch_cascade (s : Store) (mid : Int)
    (hfk : ∀ p ∈ s.players, ∃ m ∈ s.matchRows, m.id = p.matchId) :
    ((∃ m ∈ s.matchRows, m.id = mid) →
       (deleteMatch s (some mid)).1 = DeleteResult.ok ∧
       (∀ m2 ∈ (deleteMatch s (some mid)).2.matchRows, m2.id ≠ mid) ∧
       (∀ p ∈ (deleteMatch s (some mid)).2.players, p.matchId ≠ mid) ∧
       (∀ p ∈ (deleteMatch s (some mid)).2.players,
          ∃ m2 ∈ (deleteMatch s (some mid)).2.matchRows, m2.id = p.matchId) ∧
       (∀ m2 ∈ s.matchRows, m2.id ≠ mid →
          m2 ∈ (deleteMatch s (some mid)).2.matchRows) ∧
       (∀ p ∈ s.players, p.matchId ≠ mid →
          p ∈ (deleteMatch s (some mid)).2.players)) ∧
    ((∀ m ∈ s.matchRows, m.id ≠ mid) →
       deleteMatch s (some mid) = (DeleteResult.notFound, s)) := by
  constructor
  · rintro ⟨m, hmmem, hmid⟩
    have hany : (s.matchRows.any (fun m2 => m2.id == mid)) = true :=
      List.any_eq_true.mpr ⟨m, hmmem, by simp [hmid]⟩
    have hres : deleteMatch s (some mid) =
        (DeleteResult.ok,
         { s with
           matchRows := s.matchRows.filter (fun m2 => !(m2.id == mid)),
           players := s.players.filter (fun p => !(p.matchId == mid)) }) := by
      simp only [deleteMatch]
      rw [if_pos hany]
    rw [hres]
    refine ⟨rfl, ?_, ?_, ?_, ?_, ?_⟩
    · intro m2 hm2
      have := (List.mem_filter.mp hm2).2
      simpa using this
    · intro p hp
      have := (List.mem_filter.mp hp).2
      simpa using this
    · intro p hp
      have hpmem : p ∈ s.players := (List.mem_filter.mp hp).1
      have hpne : p.matchId ≠ mid := by
        have := (List.mem_filter.mp hp).2
        simpa using this
      rcases hfk p hpmem with ⟨m2, hm2mem, hm2id⟩
      refine ⟨m2, List.mem_filter.mpr ⟨hm2mem, ?_⟩, hm2id⟩
      simp [hm2id, hpne]
    · intro m2 hm2 hne
      exact List.mem_filter.mpr ⟨hm2, by simp [hne]⟩
    · intro p hp hne
      exact List.mem_filter.mpr ⟨hp, by simp [hne]⟩
  · intro hnone
    have hany : (s.matchRows.any (fun m2 => m2.id == mid)) = false := by
      rw [List.any_eq_false]
      intro m2 hm2
      simpa using hnone m2 hm2
    have hkeep : s.players.filter (fun p => !(p.matchId == mid)) = s.players := by
      rw [List.filter_eq_self]
      intro p hp
      rcases hfk p hp with ⟨m2, hm2mem, hm2id⟩
      have hne := hnone m2 hm2mem
      rw [← hm2id]
      simpa using hne
    simp only [deleteMatch]
    rw [if_neg (by simp [hany])]
    rw [hkeep]

/-- Witness for C6: deleting the demo match (with its one player) answers OK
and empties both tables; deleting absent id 2 answers NotFound and changes
nothing. -/
theorem C6_deleteMatch_cascade_witness :
    ((deleteMatch demoFull (some 1)).1 = DeleteResult.ok ∧
     (∀ m2 ∈ (deleteMatch demoFull (some 1)).2.matchRows, m2.id ≠ 1) ∧
     (∀ p ∈ (deleteMatch demoFull (some 1)).2.players, p.matchId ≠ 1) ∧
     (∀ p ∈ (deleteMatch demoFull (some 1)).2.players,
        ∃ m2 ∈ (deleteMatch demoFull (some 1)).2.matchRows, m2.id = p.matchId) ∧
     (∀ m2 ∈ demoFull.matchRows, m2.id ≠ 1 →
        m2 ∈ (deleteMatch demoFull (some 1)).2.matchRows) ∧
     (∀ p ∈ demoFull.players, p.matchId ≠ 1 →
        p ∈ (deleteMatch demoFull (some 1)).2.players)) ∧
    deleteMatch demoFull (some 2) = (DeleteResult.notFound, demoFull) :=
  ⟨(C6_deleteMatch_cascade demoFull 1 (by decide)).1 (by decide),
   (C6_deleteMatch_cascade demoFull 2 (by decide)).2 (by decide)⟩

/-- With pairwise-distinct `(matchId, name)` keys, the rows matching one key
reduce to the single witness row. -/
theorem filter_matching_eq_single {l : List PlayerRow} {mid : Int}
    {name : String}
    (hu : l.Pairwise (fun a b => (a.matchId, a.name) ≠ (b.matchId, b.name)))
    {p0 : PlayerRow} (hp0 : p0 ∈ l) (hmid : p0.matchId = mid)
    (hname : p0.name = name) :
    l.filter (fun p => p.matchId == mid && p.name == name) = [p0] := by
  induction hu with
  | nil => cases hp0
  | cons hx hxs ih =>
    rename_i x xs
    rcases List.mem_cons.mp hp0 with rfl | hp0tail
    · rw [List.filter_cons]
      rw [if_pos (by simp [hmid, hname])]
      have hnil : xs.filter (fun p => p.matchId == mid && p.name == name) = [] := by
        rw [List.filter_eq_nil_iff]
        intro q hq hmatch
        simp only [Bool.and_eq_true, beq_iff_eq] at hmatch
        refine hx q hq ?_
        show (p0.matchId, p0.name) = (q.matchId, q.name)
        rw [hmid, hname, hmatch.1, hmatch.2]
      rw [hnil]
    · have hxfalse : ¬(x.matchId = mid ∧ x.name = name) := by
        intro hmatch
        refine hx p0 hp0tail ?_
        show (x.matchId, x.name) = (p0.matchId, p0.name)
        rw [hmatch.1, hmatch.2, hmid, hname]
      rw [List.filter_cons]
      rw [if_neg (by simp only [Bool.and_eq_true, beq_iff_eq]; exact hxfalse)]
      exact ih hp0tail

/-- C7: `Leave(matchId, name)` answers NotFound exactly when no matching
player row exists, leaving the store unchanged; when the row exists it
deletes exactly that one row — the match table and every other player row
survive — and confirms success. -/
theorem C7_leave_deletes_exactly (s : Store) (mid : Int) (name : String)
    (hname : name ≠ "")
    (huniq : s.players.Pairwise
      (fun a b => (a.matchId, a.name) ≠ (b.matchId, b.name))) :
    ((∀ p ∈ s.players, ¬(p.matchId = mid ∧ p.name = name)) →
       leave s (some mid) name = (LeaveResult.notFound, s)) ∧
    (∀ p0 ∈ s.players, p0.matchId = mid → p0.name = name →
       (leave s (some mid) name).1 = LeaveResult.ok ∧
       (leave s (some mid) name).2.matchRows = s.matchRows ∧
       (leave s (some mid) name).2.players.length + 1 = s.players.length ∧
       p0 ∉ (leave s (some mid) name).2.players ∧
       (∀ q ∈ s.players, q ≠ p0 → q ∈ (leave s (some mid) name).2.players)) := by
  constructor
  · intro hnone
    have hany : (s.players.any
        (fun p => p.matchId == mid && p.name == name)) = false := by
      rw [List.any_eq_false]
      intro p hp
      have := hnone p hp
      simp only [Bool.and_eq_true, beq_iff_eq]
      tauto
    simp only [leave, if_neg hname]
    rw [if_neg (by simp [hany])]
  · intro p0 hp0 hmid hnm
    have hany : (s.players.any
        (fun p => p.matchId == mid && p.name == name)) = true :=
      List.any_eq_true.mpr ⟨p0, hp0, by simp [hmid, hnm]⟩
    have hres : leave s (some mid) name =
        (LeaveResult.ok,
         { s with players :=
             s.players.filter (fun p => !(p.matchId == mid && p.name == name)) }) := by
      simp only [leave, if_neg hname]
      rw [if_pos hany]
    rw [hres]
    have hsingle := filter_matching_eq_single huniq hp0 hmid hnm
    refine ⟨rfl, rfl, ?_, ?_, ?_⟩
    · show (s.players.filter
          (fun p => !(p.matchId == mid && p.name == name))).length + 1 =
        s.players.length
      have htot := List.length_eq_length_filter_add
        (l := s.players) (fun p => p.matchId == mid && p.name == name)
      rw [hsingle] at htot
      simp only [List.length_singleton] at htot
      omega
    · intro hcon
      have := (List.mem_filter.mp hcon).2
      simp [hmid, hnm] at this
    · intro q hq hqne
      refine List.mem_filter.mpr ⟨hq, ?_⟩
      cases hb : (q.matchId == mid && q.name == name) with
      | false => simp [hb]
      | true =>
        exfalso
        have hqmatch : q.matchId = mid ∧ q.name = name := by
          simpa using hb
        refine hqne (eq_of_mem_pairwise_key
          (f := fun p => (p.matchId, p.name)) huniq hq hp0 ?_)
        show (q.matchId, q.name) = (p0.matchId, p0.name)
        rw [hqmatch.1, hqmatch.2, hmid, hnm]

/-- Witness for C7: in the demo store, leaving with a non-member name is
NotFound and changes nothing; "A" leaving the full demo match deletes
exactly "A"'s row. -/
theorem C7_leave_deletes_exactly_witness :
    leave demoFull (some 1) "Z" = (LeaveResult.notFound, demoFull) ∧
    ((leave demoFull (some 1) "A").1 = LeaveResult.ok ∧
     (leave demoFull (some 1) "A").2.matchRows = demoFull.matchRows ∧
     (leave demoFull (some 1) "A").2.players.length + 1 =
       demoFull.players.length ∧
     demoPlayerA ∉ (leave demoFull (some 1) "A").2.players ∧
     (∀ q ∈ demoFull.players, q ≠ demoPlayerA →
        q ∈ (leave demoFull (some 1) "A").2.players)) :=
  ⟨(C7_leave_deletes_exactly demoFull 1 "Z" (by decide) (by decide)).1
      (by decide),
   (C7_leave_deletes_exactly demoFull 1 "A" (by decide) (by decide)).2
      demoPlayerA (by decide) (by decide) (by decide)⟩

/-- C8: `ListMatches` returns exactly one aggregate per match row (a
permutation of the table), ordered newest-first by `createdAt`; every
aggregate carries the creator object and its players ordered by `joinedAt`;
a match with no player rows gets the empty list — also through `GetMatch` —
and the empty store yields `[]`. -/
theorem C8_listMatches_aggregates (s : Store) :
    (s.matchRows = [] → listMatches s = []) ∧
    (listMatches s).Perm (s.matchRows.map (aggregateOf s)) ∧
    (listMatches s).Pairwise (fun a b => b.row.createdAt ≤ a.row.createdAt) ∧
    (∀ agg ∈ listMatches s,
       agg.creator = { name := agg.row.creatorName,
                       contact := agg.row.creatorContact } ∧
       agg.players.Pairwise (fun a b => a.joinedAt ≤ b.joinedAt)) ∧
    (∀ m ∈ s.matchRows, playersOf s m.id = [] →
       (aggregateOf s m).players = []) ∧
    (∀ mid agg, getMatch s (some mid) = GetMatchResult.ok agg →
       playersOf s agg.row.id = [] → agg.players = []) := by
  refine ⟨?_, ?_, ?_, ?_, ?_, ?_⟩
  · intro h
    simp [listMatches, h]
  · exact (List.perm_insertionSort createdAfter s.matchRows).map _
  · have hs := List.sorted_insertionSort createdAfter s.matchRows
    simp only [listMatches]
    rw [List.pairwise_map]
    exact hs
  · intro agg hagg
    rcases List.mem_map.mp hagg with ⟨m, hmem, rfl⟩
    refine ⟨rfl, ?_⟩
    have hp := List.sorted_insertionSort joinedBefore (playersOf s m.id)
    simp only [aggregateOf]
    rw [List.pairwise_map]
    exact hp
  · intro m hm hempty
    simp [aggregateOf, hempty]
  · intro mid agg hget hempty
    cases hf : findMatch s mid with
    | none => simp [getMatch, hf] at hget
    | some m =>
      have hok : GetMatchResult.ok (aggregateOf s m) = GetMatchResult.ok agg := by
        rw [← hget]
        simp [getMatch, hf]
      have hagg : aggregateOf s m = agg := by injection hok
      subst hagg
      simp only [aggregateOf] at hempty ⊢
      simp [hempty]

/-- Witness for C8: the empty store lists `[]`; the fresh demo match's
aggregate has the creator object, sorted (empty) players, and the empty
player list. -/
theorem C8_listMatches_aggregates_witness :
    listMatches Store.init = [] ∧
    ((aggregateOf demoStore demoMatch).creator =
       { name := demoMatch.creatorName, contact := demoMatch.creatorContact } ∧
     (aggregateOf demoStore demoMatch).players.Pairwise
       (fun a b => a.joinedAt ≤ b.joinedAt)) ∧
    (aggregateOf demoStore demoMatch).players = [] :=
  ⟨(C8_listMatches_aggregates Store.init).1 rfl,
   (C8_listMatches_aggregates demoStore).2.2.2.1
      (aggregateOf demoStore demoMatch) (by decide),
   (C8_listMatches_aggregates demoStore).2.2.2.2.1 demoMatch (by decide)
      (by decide)⟩

/-- C9: `Logout` invalidates the presented token — an immediate
`GetCurrentUser` with that token is answered 401 — while a token still
mapped in the session store to an existing user row resolves to that user's
identity. -/
theorem C9_logout_invalidates (sessions : List (String × Int))
    (users : List User) (token : String) :
    (authMe (logout sessions token) users token).status = 401 ∧
    (∀ uid u, token ≠ "" → sessionsGet sessions token = some uid →
       users.find? (fun x => x.id == uid) = some u →
       authMe sessions users token = AuthMeResult.ok u) := by
  constructor
  · by_cases htok : token = ""
    · simp [authMe, htok, AuthMeResult.status]
    · have hfind : List.find? (fun e => e.1 == token)
          (List.filter (fun e => !(e.1 == token)) sessions) = none := by
        rw [List.find?_eq_none]
        intro x hx
        have := (List.mem_filter.mp hx).2
        simpa using this
      have hnone : sessionsGet (logout sessions token) token = none := by
        simp [logout, if_neg htok, sessionsDelete, sessionsGet, hfind]
      simp [authMe, htok, getUserFromToken, hnone, AuthMeResult.status]
  · intro uid u htok hget hfind
    simp [authMe, htok, getUserFromToken, hget, hfind]

/-- Witness for C9: the token "t" mapped to user 7 resolves the user, and
after logout the same token is a 401. -/
theorem C9_logout_invalidates_witness :
    (authMe (logout [("t", 7)] "t")
       [{ id := 7, username := "u", name := "N", contact := "K" }] "t").status
      = 401 ∧
    authMe [("t", 7)]
        [{ id := 7, username := "u", name := "N", contact := "K" }] "t" =
      AuthMeResult.ok { id := 7, username := "u", name := "N", contact := "K" } :=
  ⟨(C9_logout_invalidates [("t", 7)]
      [{ id := 7, username := "u", name := "N", contact := "K" }] "t").1,
   (C9_logout_invalidates [("t", 7)]
      [{ id := 7, username := "u", name := "N", contact := "K" }] "t").2 7
      { id := 7, username := "u", name := "N", contact := "K" } (by decide)
      (by decide) (by decide)⟩

/-- C10 counterexample: the claim says every `:id` without leading digits
parses to NaN and is answered 500; but `parseInt` consumes a sign, so "+5"
(no leading digit) parses to 5 and the handler answers 404 on the empty
store, not 500. -/
theorem C10_counterexample :
    jsParseInt "+5" = some 5 ∧
    jsParseInt "+5" ≠ none ∧
    getMatch Store.init (jsParseInt "+5") = GetMatchResult.notFound ∧
    (getMatch Store.init (jsParseInt "+5")).status ≠ 500 := by
  decide

/-- Base-10 `digitVal` succeeds exactly on the decimal digits: letters map
to values of at least 10 and are filtered by the radix check. -/
theorem digitVal_ten_isSome_iff (c : Char) :
    (digitVal 10 c).isSome = true ↔ ('0' ≤ c ∧ c ≤ '9') := by
  constructor
  · intro h
    by_contra hcon
    simp only [digitVal] at h
    rw [if_neg hcon] at h
    by_cases ha : 'a' ≤ c ∧ c ≤ 'z'
    · rw [if_pos ha] at h
      have hge : ¬(c.toNat - 'a'.toNat + 10 < 10) := by omega
      simp [hge] at h
    · rw [if_neg ha] at h
      by_cases hA : 'A' ≤ c ∧ c ≤ 'Z'
      · rw [if_pos hA] at h
        have hge : ¬(c.toNat - 'A'.toNat + 10 < 10) := by omega
        simp [hge] at h
      · rw [if_neg hA] at h
        simp at h
  · intro h
    have h1 := h.1
    have h2 := h.2
    rw [Char.le_def] at h1 h2
    have g1 : ('0'.val).toNat ≤ (c.val).toNat := h1
    have g2 : (c.val).toNat ≤ ('9'.val).toNat := h2
    have e1 : ('0'.val).toNat = 48 := rfl
    have e2 : ('9'.val).toNat = 57 := rfl
    have hlt : c.toNat - 48 < 10 := by
      simp only [Char.toNat]
      omega
    simp only [digitVal]
    rw [if_pos h]
    simp [hlt]

/-- `takeWhile` on an appended list keeps exactly the first block when the
predicate holds throughout it and fails on the head of the second block. -/
theorem takeWhile_append_first (p : Char → Bool) :
    ∀ (l1 l2 : List Char), (∀ c ∈ l1, p c = true) →
      (∀ c ∈ l2.take 1, p c = false) →
      (l1 ++ l2).takeWhile p = l1 := by
  intro l1
  induction l1 with
  | nil =>
    intro l2 _ h2
    cases l2 with
    | nil => rfl
    | cons r r2 =>
      simp only [List.nil_append, List.takeWhile_cons]
      rw [if_neg (by simp [h2 r (by simp)])]
  | cons a l1t ih =>
    intro l2 h1 h2
    simp only [List.cons_append, List.takeWhile_cons]
    rw [if_pos (h1 a (List.mem_cons_self _ _))]
    rw [ih l2 (fun c hc => h1 c (List.mem_cons_of_mem _ hc)) h2]

/-- Evaluation of `parseInt` on a list with no leading whitespace, no sign,
no hex prefix, and a nonempty leading digit block `ds`. -/
theorem jsParseIntList_of_steps (cs tail1 ds : List Char)
    (hdrop : cs.dropWhile isJsSpace = tail1)
    (hsign : stripSign tail1 = (1, tail1))
    (hhex : stripHex tail1 = (10, tail1))
    (htake : tail1.takeWhile (fun c => (digitVal 10 c).isSome) = ds)
    (hne : ds ≠ []) :
    jsParseIntList cs =
      some (((ds.foldl
        (fun acc c => acc * 10 + ((digitVal 10 c).getD 0)) 0 : Nat) : Int)) := by
  simp only [jsParseIntList, hdrop, hsign, hhex, htake]
  rw [if_neg hne]
  simp

/-- `parseInt` on any string made of a nonempty decimal-digit prefix `ds`
followed by a remainder whose first character is not a digit equals
`parseInt` of the prefix alone; the one exception ECMAScript carves out is
the hex form, a lone `0` followed by `x`/`X`, which is excluded. -/
theorem jsParseIntList_digit_prefix (ds rest : List Char) (hne : ds ≠ [])
    (hds : ∀ c ∈ ds, '0' ≤ c ∧ c ≤ '9')
    (hrest : ∀ c ∈ rest.take 1, ¬('0' ≤ c ∧ c ≤ '9'))
    (hnohex : ¬(ds = ['0'] ∧ (rest.head? = some 'x' ∨ rest.head? = some 'X'))) :
    jsParseIntList (ds ++ rest) = jsParseIntList ds := by
  rcases ds with _ | ⟨d, ds2⟩
  · exact absurd rfl hne
  · have hd : '0' ≤ d ∧ d ≤ '9' := hds d (List.mem_cons_self _ _)
    have hdne : ∀ x : Char, ¬('0' ≤ x ∧ x ≤ '9') → d ≠ x := by
      intro x hx h
      rw [h] at hd
      exact hx hd
    have hdsp : isJsSpace d = false := by
      simp [isJsSpace, hdne ' ' (by decide), hdne '\t' (by decide),
            hdne '\n' (by decide), hdne '\r' (by decide),
            hdne '\x0b' (by decide), hdne '\x0c' (by decide)]
    have hdm : d ≠ '-' := hdne '-' (by decide)
    have hdp : d ≠ '+' := hdne '+' (by decide)
    have hdsP : ∀ c ∈ d :: ds2, ((digitVal 10 c).isSome) = true := by
      intro c hc
      exact (digitVal_ten_isSome_iff c).mpr (hds c hc)
    have hdropP : (d :: ds2).dropWhile isJsSpace = d :: ds2 := by
      rw [List.dropWhile_cons, if_neg (by simp [hdsp])]
    have hsignP : stripSign (d :: ds2) = (1, d :: ds2) := by
      simp only [stripSign]
      rw [if_neg hdm, if_neg hdp]
    have htakeP : (d :: ds2).takeWhile (fun c => (digitVal 10 c).isSome) =
        d :: ds2 := by
      have h := takeWhile_append_first (fun c => (digitVal 10 c).isSome)
        (d :: ds2) [] hdsP (by intro c hc; simp at hc)
      rwa [List.append_nil] at h
    have hhexP : stripHex (d :: ds2) = (10, d :: ds2) := by
      cases ds2 with
      | nil => rfl
      | cons c2 ds3 =>
        have hc2 : '0' ≤ c2 ∧ c2 ≤ '9' := hds c2 (by simp)
        have hc2x : c2 ≠ 'x' := by
          intro h
          rw [h] at hc2
          exact absurd hc2 (by decide)
        have hc2X : c2 ≠ 'X' := by
          intro h
          rw [h] at hc2
          exact absurd hc2 (by decide)
        simp only [stripHex]
        rw [if_neg ?hcond]
        case hcond =>
          rintro ⟨_, hx | hX⟩
          · exact hc2x hx
          · exact hc2X hX
    have hfoldP := jsParseIntList_of_steps (d :: ds2) (d :: ds2) (d :: ds2)
      hdropP hsignP hhexP htakeP (by simp)
    cases rest with
    | nil => rw [List.append_nil]
    | cons r rest2 =>
      have hr : ¬('0' ≤ r ∧ r ≤ '9') := hrest r (by simp)
      have hrP : (digitVal 10 r).isSome = false := by
        cases hbool : (digitVal 10 r).isSome with
        | false => rfl
        | true => exact absurd ((digitVal_ten_isSome_iff r).mp hbool) hr
      rw [List.cons_append]
      have hdropF : (d :: (ds2 ++ r :: rest2)).dropWhile isJsSpace =
          d :: (ds2 ++ r :: rest2) := by
        rw [List.dropWhile_cons, if_neg (by simp [hdsp])]
      have hsignF : stripSign (d :: (ds2 ++ r :: rest2)) =
          (1, d :: (ds2 ++ r :: rest2)) := by
        simp only [stripSign]
        rw [if_neg hdm, if_neg hdp]
      have hheadF : ∀ c ∈ (r :: rest2).take 1,
          ((digitVal 10 c).isSome) = false := by
        intro c hc
        simp at hc
        rw [hc]
        exact hrP
      have htakeF : (d :: (ds2 ++ r :: rest2)).takeWhile
          (fun c => (digitVal 10 c).isSome) = d :: ds2 := by
        have h := takeWhile_append_first (fun c => (digitVal 10 c).isSome)
          (d :: ds2) (r :: rest2) hdsP hheadF
        rwa [List.cons_append] at h
      have hhexF : stripHex (d :: (ds2 ++ r :: rest2)) =
          (10, d :: (ds2 ++ r :: rest2)) := by
        cases ds2 with
        | nil =>
          simp only [List.nil_append]
          simp only [stripHex]
          rw [if_neg ?hcond]
          case hcond =>
            rintro ⟨hd0, hor⟩
            apply hnohex
            refine ⟨by rw [hd0], ?_⟩
            rcases hor with h | h
            · exact Or.inl (by simp [h])
            · exact Or.inr (by simp [h])
        | cons c2 ds3 =>
          have hc2 : '0' ≤ c2 ∧ c2 ≤ '9' := hds c2 (by simp)
          have hc2x : c2 ≠ 'x' := by
            intro h
            rw [h] at hc2
            exact absurd hc2 (by decide)
          have hc2X : c2 ≠ 'X' := by
            intro h
            rw [h] at hc2
            exact absurd hc2 (by decide)
          simp only [List.cons_append]
          simp only [stripHex]
          rw [if_neg ?hcond]
          case hcond =>
            rintro ⟨_, hx | hX⟩
            · exact hc2x hx
            · exact hc2X hX
      have hfoldF := jsParseIntList_of_steps (d :: (ds2 ++ r :: rest2))
        (d :: (ds2 ++ r :: rest2)) (d :: ds2) hdropF hsignF hhexF htakeF
        (by simp)
      rw [hfoldF, hfoldP]

/-- C10 amended: every match endpoint parses `:id` with ECMAScript
`parseInt` and uses only the parsed number.  (a) For every `:id` consisting
of a nonempty decimal-digit prefix followed by a remainder that starts with
a non-digit — excluding the hex form, a lone `0` followed by `x`/`X` —
`parseInt` returns the prefix's value and all four endpoints (GetMatch,
Join, Leave, DeleteMatch) behave exactly as if called with the prefix
alone.  (b) For every `:id` that `parseInt` sends to NaN, the store query
fails and every endpoint answers 500 ServiceError, never 404 NotFound
(Join and Leave after their body-field guards, which run first).  (c) But
`parseInt` also consumes whitespace, signs and hex prefixes, so ids without
leading digits can still parse to numbers ("+5" to 5, "0x1A" to 26), while
"abc" is NaN and "5abc" acts as "5". -/
theorem C10_id_parsing (s : Store) (idStr name contact : String)
    (ds rest : List Char) :
    (ds ≠ [] → (∀ c ∈ ds, '0' ≤ c ∧ c ≤ '9') →
     (∀ c ∈ rest.take 1, ¬('0' ≤ c ∧ c ≤ '9')) →
     ¬(ds = ['0'] ∧ (rest.head? = some 'x' ∨ rest.head? = some 'X')) →
       jsParseInt (String.mk (ds ++ rest)) = jsParseInt (String.mk ds) ∧
       getMatchRoute s (String.mk (ds ++ rest)) =
         getMatchRoute s (String.mk ds) ∧
       joinRoute s (String.mk (ds ++ rest)) name contact =
         joinRoute s (String.mk ds) name contact ∧
       leaveRoute s (String.mk (ds ++ rest)) name =
         leaveRoute s (String.mk ds) name ∧
       deleteMatchRoute s (String.mk (ds ++ rest)) =
         deleteMatchRoute s (String.mk ds)) ∧
    (jsParseInt idStr = none →
       getMatchRoute s idStr = GetMatchResult.serviceError ∧
       (getMatchRoute s idStr).status = 500 ∧
       getMatchRoute s idStr ≠ GetMatchResult.notFound ∧
       (name ≠ "" → contact ≠ "" →
          joinRoute s idStr name contact = (JoinResult.serviceError, s)) ∧
       (name ≠ "" →
          leaveRoute s idStr name = (LeaveResult.serviceError, s)) ∧
       deleteMatchRoute s idStr = (DeleteResult.serviceError, s)) ∧
    jsParseInt "5abc" = jsParseInt "5" ∧
    jsParseInt "abc" = none ∧
    jsParseInt "+5" = some 5 ∧
    jsParseInt "0x1A" = some 26 := by
  refine ⟨?_, ?_, by decide, by decide, by decide, by decide⟩
  · intro hne hds hrest hnohex
    have hpq : jsParseInt (String.mk (ds ++ rest)) = jsParseInt (String.mk ds) :=
      jsParseIntList_digit_prefix ds rest hne hds hrest hnohex
    exact ⟨hpq, by simp only [getMatchRoute, hpq],
           by simp only [joinRoute, hpq], by simp only [leaveRoute, hpq],
           by simp only [deleteMatchRoute, hpq]⟩
  · intro hnan
    refine ⟨?_, ?_, ?_, ?_, ?_, ?_⟩
    · simp only [getMatchRoute, hnan]
      rfl
    · simp only [getMatchRoute, hnan]
      rfl
    · simp only [getMatchRoute, hnan]
      exact fun h => GetMatchResult.noConfusion h
    · intro hn hc
      have hcond : ¬(name = "" ∨ contact = "") := by
        push_neg
        exact ⟨hn, hc⟩
      simp only [joinRoute, hnan, join, if_neg hcond]
    · intro hn
      simp only [leaveRoute, hnan, leave, if_neg hn]
    · simp only [deleteMatchRoute, hnan, deleteMatch]

/-- Witness for C10: "5abc" acts as "5" on all four endpoints, and "abc"
(NaN) is answered 500, never 404, on all four. -/
theorem C10_id_parsing_witness :
    (jsParseInt (String.mk (['5'] ++ ['a', 'b', 'c'])) =
       jsParseInt (String.mk ['5']) ∧
     getMatchRoute Store.init (String.mk (['5'] ++ ['a', 'b', 'c'])) =
       getMatchRoute Store.init (String.mk ['5']) ∧
     joinRoute Store.init (String.mk (['5'] ++ ['a', 'b', 'c'])) "A" "a@x" =
       joinRoute Store.init (String.mk ['5']) "A" "a@x" ∧
     leaveRoute Store.init (String.mk (['5'] ++ ['a', 'b', 'c'])) "A" =
       leaveRoute Store.init (String.mk ['5']) "A" ∧
     deleteMatchRoute Store.init (String.mk (['5'] ++ ['a', 'b', 'c'])) =
       deleteMatchRoute Store.init (String.mk ['5'])) ∧
    (getMatchRoute Store.init "abc" = GetMatchResult.serviceError ∧
     (getMatchRoute Store.init "abc").status = 500 ∧
     getMatchRoute Store.init "abc" ≠ GetMatchResult.notFound ∧
     ("A" ≠ "" → "a@x" ≠ "" →
        joinRoute Store.init "abc" "A" "a@x" =
          (JoinResult.serviceError, Store.init)) ∧
     ("A" ≠ "" →
        leaveRoute Store.init "abc" "A" =
          (LeaveResult.serviceError, Store.init)) ∧
     deleteMatchRoute Store.init "abc" =
       (DeleteResult.serviceError, Store.init)) :=
  ⟨(C10_id_parsing Store.init "abc" "A" "a@x" ['5'] ['a', 'b', 'c']).1
      (by decide) (by decide) (by decide) (by decide),
   (C10_id_parsing Store.init "abc" "A" "a@x" ['5'] ['a', 'b', 'c']).2.1
      (by decide)⟩

end Turfup
